import Mathlib

/-!
Shallow embedding of the to-do list subsystem of `src/index.tsx`.

The in-memory state of the Task List Manager consists of the module-level
variables `tasks : Task[]` and `editingId : number | null`, together with the
persisted store entry under the key "tasks" in `localStorage`.  The operations
`addTask`, `toggleTask`, `deleteTask`, `setEditing`, `cancelEditing`,
`updateTaskText`, the editing-row save handler (`handleSave`), the form submit
handler, `saveTasks` and `loadTasks` are embedded below as pure functions on an
explicit state record.  `renderTasks` only produces DOM output and is not part
of the state; the `setTimeout` delays carry no state semantics and are elided.

Task ids come from `Date.now()`; the embedding takes the current time as an
explicit `now : Nat` parameter of `addTask`.
-/

namespace FixGalleria

/-- A to-do item, from `interface Task` in the source: numeric id, text, and a
completed flag. -/
structure Task where
  id : Nat
  text : String
  completed : Bool
deriving DecidableEq

/-- Content of the persisted store value under the key "tasks", classified by
the behaviour of the external platform pair `JSON.stringify` / `JSON.parse`:
`malformed` stands for a non-empty stored string on which `JSON.parse` throws
(for example "{"); `tasksJson ts` stands for the string produced by
`JSON.stringify` applied to the task array `ts`, which `JSON.parse` maps back
to that same array (numeric ids, strings and booleans round-trip through JSON
exactly).  A stored empty string is falsy in JavaScript and is treated by the
code exactly like an absent key, so it is covered by the `none` case of the
`Option` wrapping this type. -/
inductive StoredString where
  | malformed : StoredString
  | tasksJson : List Task → StoredString
deriving DecidableEq

/-- The state owned by the Task List Manager: the module-level `tasks` and
`editingId` variables, plus the persisted store entry for the key "tasks". -/
structure AppState where
  tasks : List Task
  editingId : Option Nat
  store : Option StoredString
deriving DecidableEq

/-- The state at script start: `tasks = []`, `editingId = null`, and (for a
fresh session) no stored value. -/
def initialState : AppState :=
  { tasks := [], editingId := none, store := none }

/-- `saveTasks` (src lines 124-126): writes `JSON.stringify(tasks)` to the
store under the key "tasks". -/
def saveTasks (s : AppState) : AppState :=
  { s with store := some (.tasksJson s.tasks) }

/-- `loadTasks` (src lines 128-133): reads the stored value; if it is absent
(or falsy) the `tasks` variable keeps its current value; otherwise the value is
passed to `JSON.parse`, whose result is assigned to `tasks`.  There is no
try/catch, so when `JSON.parse` throws the exception propagates to the caller;
this is the `Except.error` case. -/
def loadTasks : Option StoredString → List Task → Except Unit (List Task)
  | none, current => .ok current
  | some .malformed, _ => .error ()
  | some (.tasksJson ts), _ => .ok ts

/-- `addTask` (src lines 241-250): pushes a new task with id `Date.now()`
(passed here as `now`), the given text and `completed = false` onto the end of
the list, then saves. -/
def addTask (now : Nat) (text : String) (s : AppState) : AppState :=
  saveTasks { s with tasks := s.tasks ++ [{ id := now, text := text, completed := false }] }

/-- `toggleTask` (src lines 252-258): maps over the list, flipping `completed`
on every task whose id matches and spreading the rest of the fields unchanged,
then saves. -/
def toggleTask (id : Nat) (s : AppState) : AppState :=
  saveTasks { s with
    tasks := s.tasks.map fun t => if t.id = id then { t with completed := !t.completed } else t }

/-- `deleteTask` (src lines 260-264): filters out every task whose id matches,
then saves.  Note that `editingId` is left untouched. -/
def deleteTask (id : Nat) (s : AppState) : AppState :=
  saveTasks { s with tasks := s.tasks.filter fun t => decide (t.id ≠ id) }

/-- `setEditing` (src lines 266-269): sets `editingId` to the given id,
unconditionally, and re-renders.  No persistence, no existence check. -/
def setEditing (id : Nat) (s : AppState) : AppState :=
  { s with editingId := some id }

/-- `cancelEditing` (src lines 271-274): clears `editingId` and re-renders.
No persistence. -/
def cancelEditing (s : AppState) : AppState :=
  { s with editingId := none }

/-- `updateTaskText` (src lines 276-283): maps over the list, replacing the
text of every task whose id matches and spreading the rest of the fields
unchanged, clears `editingId`, then saves. -/
def updateTaskText (id : Nat) (newText : String) (s : AppState) : AppState :=
  saveTasks { s with
    tasks := s.tasks.map fun t => if t.id = id then { t with text := newText } else t,
    editingId := none }

/-- Model of the JavaScript string method trim, used by the source at lines
165 and 287: strips leading and trailing whitespace characters.  (JavaScript
trims the full Unicode white-space set; `Char.isWhitespace` covers the ASCII
part, which is all the claims exercise.) -/
def jsTrim (s : String) : String :=
  ⟨((s.data.dropWhile Char.isWhitespace).reverse.dropWhile Char.isWhitespace).reverse⟩

/-- `handleSave` (src lines 164-171, identically repeated in the Save button
handler at lines 197-207): trims the edit field value; a non-empty result is
committed via `updateTaskText`, an empty result falls back to
`cancelEditing`.  This is the saveEdit operation of the spec. -/
def handleSave (id : Nat) (raw : String) (s : AppState) : AppState :=
  let newText := jsTrim raw
  if newText.isEmpty then cancelEditing s else updateTaskText id newText s

/-- The todo form submit handler (src lines 285-302): trims the input; only
when the trimmed text is non-empty (truthy) and the add button is not disabled
does it invoke `addTask` with the trimmed text (after an artificial delay that
carries no state semantics). -/
def todoFormSubmit (now : Nat) (raw : String) (addDisabled : Bool) (s : AppState) : AppState :=
  let text := jsTrim raw
  if !text.isEmpty && !addDisabled then addTask now text s else s

/-- One user-level operation on the Task List Manager. -/
inductive Op where
  | add : Nat → String → Op
  | toggle : Nat → Op
  | delete : Nat → Op
  | beginEdit : Nat → Op
  | saveEdit : Nat → String → Op
  | cancelEdit : Op
deriving DecidableEq

/-- Dispatch one operation to the corresponding source function. -/
def step (s : AppState) : Op → AppState
  | .add now text => addTask now text s
  | .toggle id => toggleTask id s
  | .delete id => deleteTask id s
  | .beginEdit id => setEditing id s
  | .saveEdit id raw => handleSave id raw s
  | .cancelEdit => cancelEditing s

/-- Run a sequence of operations from a given state. -/
def runFrom (s : AppState) (ops : List Op) : AppState :=
  ops.foldl step s

/-- Run a sequence of operations from the initial state. -/
def run (ops : List Op) : AppState :=
  runFrom initialState ops

/-- The ids of the tasks currently in the list, in list order. -/
def taskIds (s : AppState) : List Nat :=
  s.tasks.map Task.id

/-- The Editing Cursor invariant of the spec: the cursor is `None` or equals
the id of a task present in the current Task List. -/
def cursorOk (s : AppState) : Bool :=
  match s.editingId with
  | none => true
  | some id => s.tasks.any fun t => decide (t.id = id)

/-- The `Date.now()` values consumed by the add operations of a trace, in
order. -/
def addTimes (ops : List Op) : List Nat :=
  ops.filterMap fun op =>
    match op with
    | .add now _ => some now
    | _ => none

/-- Guard describing how the rendered UI can actually invoke an operation:
beginEdit is only reachable from the row of an existing task, and the row
currently being edited shows Save/Cancel instead of a Delete button, so delete
is never invoked on the id under edit. -/
def opGuard (s : AppState) : Op → Bool
  | .beginEdit id => s.tasks.any fun t => decide (t.id = id)
  | .delete id => decide (s.editingId ≠ some id)
  | _ => true

/-- A trace is good from `s` when every operation satisfies its guard in the
state where it runs. -/
def goodFrom (s : AppState) : List Op → Bool
  | [] => true
  | op :: rest => opGuard s op && goodFrom (step s op) rest

/-- A concrete one-task state used by the witness theorems. -/
def sampleState : AppState :=
  { tasks := [{ id := 1, text := "A", completed := false }], editingId := none, store := none }

/-! ## C3 : beginEdit and absent ids -/

/-- C3 counterexample: the claim says beginEdit on an id absent from the list
is a no-op, but on the empty initial state `setEditing 5` moves the cursor
from `none` to `some 5` even though no task has id 5. -/
theorem setEditing_absent_counterexample :
    (setEditing 5 initialState).editingId = some 5 ∧
      initialState.tasks = [] ∧ initialState.editingId = none :=
  ⟨rfl, rfl, rfl⟩

/-- C3 (amended): `setEditing id` sets the Editing Cursor to `id`
unconditionally, with no existence check, and leaves the Task List and the
store unchanged; when the id is present in the list this coincides with the
behaviour the claim describes. -/
theorem setEditing_unconditional (s : AppState) (id : Nat) :
    (setEditing id s).editingId = some id ∧
      (setEditing id s).tasks = s.tasks ∧ (setEditing id s).store = s.store :=
  ⟨rfl, rfl, rfl⟩

/-! ## C4 : load on malformed stored data -/

/-- C4: on a non-empty stored string that is not valid JSON, `JSON.parse`
throws and `loadTasks` has no try/catch, so the exception propagates to the
caller instead of yielding an empty Task List.  The claim (load never raises;
parse failure yields an empty list) fails on this input. -/
theorem loadTasks_malformed_raises :
    loadTasks (some .malformed) [] = .error () :=
  rfl

/-! ## C5 : add with blank text is a no-op -/

/-- C5: submitting the todo form with text whose trim is empty leaves the
whole state (Task List included) unchanged; no error is produced. -/
theorem add_blank_noop (now : Nat) (raw : String) (addDisabled : Bool) (s : AppState)
    (h : jsTrim raw = "") : todoFormSubmit now raw addDisabled s = s := by
  have he : (jsTrim raw).isEmpty = true := by rw [h]; rfl
  simp [todoFormSubmit, he]

/-- C5 witness at the whitespace-only input "   ". -/
theorem add_blank_noop_witness :
    jsTrim "   " = "" ∧ todoFormSubmit 0 "   " false initialState = initialState :=
  ⟨by decide, add_blank_noop 0 "   " false initialState (by decide)⟩

/-! ## C7 : add then save/load round-trip -/

/-- C7: from the empty initial state, adding "Buy milk" writes the serialized
list to the store, and a fresh load from that store yields exactly one task
with text "Buy milk" and `completed = false`. -/
theorem add_persist_roundtrip (now : Nat) :
    loadTasks (addTask now "Buy milk" initialState).store [] =
      .ok [{ id := now, text := "Buy milk", completed := false }] :=
  rfl

/-! ## C9 : saveEdit with blank text equals cancelEdit -/

/-- C9: for an id present in the list, beginEdit followed by saveEdit with a
whitespace-only text produces exactly the same state as beginEdit followed by
cancelEdit: the cursor is cleared and every text is unchanged. -/
theorem saveEdit_blank_equals_cancel (s : AppState) (id : Nat) (raw : String)
    (hraw : jsTrim raw = "") (hid : id ∈ taskIds s) :
    handleSave id raw (setEditing id s) = cancelEditing (setEditing id s) ∧
      (handleSave id raw (setEditing id s)).editingId = none ∧
      (handleSave id raw (setEditing id s)).tasks.map Task.text = s.tasks.map Task.text := by
  have he : (jsTrim raw).isEmpty = true := by rw [hraw]; rfl
  have h1 : handleSave id raw (setEditing id s) = cancelEditing (setEditing id s) := by
    simp [handleSave, he]
  exact ⟨h1, by rw [h1]; rfl, by rw [h1]; rfl⟩

/-- C9 witness at a one-task state, id 1, raw text "  ". -/
theorem saveEdit_blank_equals_cancel_witness :
    jsTrim "  " = "" ∧ 1 ∈ taskIds sampleState ∧
      handleSave 1 "  " (setEditing 1 sampleState) = cancelEditing (setEditing 1 sampleState) :=
  ⟨by decide, by decide, (saveEdit_blank_equals_cancel sampleState 1 "  " (by decide) (by decide)).1⟩

/-! ## C2 : delete removes exactly the matching task -/

/-- C2: deleting an id absent from the list is a no-op on the list, and when
the list has pairwise distinct ids (the Task data model) and splits as
`l₁ ++ t :: l₂` around the unique task `t` whose id matches, delete yields
exactly `l₁ ++ l₂`: the matching task is removed and the rest keep their
relative order, unchanged. -/
theorem deleteTask_removes_exactly (s : AppState) (id : Nat) :
    ((∀ t ∈ s.tasks, t.id ≠ id) → (deleteTask id s).tasks = s.tasks) ∧
      ((taskIds s).Nodup →
        ∀ l₁ t l₂, s.tasks = l₁ ++ t :: l₂ → t.id = id →
          (deleteTask id s).tasks = l₁ ++ l₂) := by
  constructor
  · intro h
    show s.tasks.filter (fun t => decide (t.id ≠ id)) = s.tasks
    exact List.filter_eq_self.mpr fun a ha => by simpa using h a ha
  · intro hnd l₁ t l₂ hs ht
    show s.tasks.filter (fun t => decide (t.id ≠ id)) = l₁ ++ l₂
    rw [taskIds, hs] at hnd
    rw [hs, List.filter_append]
    rw [List.map_append, List.map_cons, List.nodup_middle, List.nodup_cons] at hnd
    obtain ⟨hmem, -⟩ := hnd
    rw [List.mem_append] at hmem
    push_neg at hmem
    obtain ⟨h₁, h₂⟩ := hmem
    have e₁ : l₁.filter (fun t => decide (t.id ≠ id)) = l₁ :=
      List.filter_eq_self.mpr fun a ha => by
        simp only [decide_eq_true_eq]
        intro hc
        exact h₁ (by rw [ht, ← hc]; exact List.mem_map_of_mem Task.id ha)
    have e₂ : (t :: l₂).filter (fun x => decide (x.id ≠ id)) =
        l₂.filter (fun x => decide (x.id ≠ id)) :=
      List.filter_cons_of_neg (by simp [ht])
    have e₃ : l₂.filter (fun t => decide (t.id ≠ id)) = l₂ :=
      List.filter_eq_self.mpr fun a ha => by
        simp only [decide_eq_true_eq]
        intro hc
        exact h₂ (by rw [ht, ← hc]; exact List.mem_map_of_mem Task.id ha)
    rw [e₁, e₂, e₃]

/-- C2 witness: deleting id 1 from the one-task sample state removes exactly
that task; deleting the absent id 2 is a no-op. -/
theorem deleteTask_removes_exactly_witness :
    (taskIds sampleState).Nodup ∧
      (deleteTask 1 sampleState).tasks = [] ∧
      (deleteTask 2 sampleState).tasks = sampleState.tasks :=
  ⟨by decide,
   (deleteTask_removes_exactly sampleState 1).2 (by decide) []
     { id := 1, text := "A", completed := false } [] (by decide) rfl,
   (deleteTask_removes_exactly sampleState 2).1 (by decide)⟩

/-! ## C8 : toggle is an involution and preserves everything else -/

/-- C8: toggling the same id twice restores the task list exactly (so every
completed flag returns to its original value); a single toggle preserves the
length and the sequences of ids and of texts (hence the order); toggling an
absent id leaves the list unchanged. -/
theorem toggleTask_involutive (s : AppState) (id : Nat) :
    (toggleTask id (toggleTask id s)).tasks = s.tasks ∧
      (toggleTask id s).tasks.map Task.id = s.tasks.map Task.id ∧
      (toggleTask id s).tasks.map Task.text = s.tasks.map Task.text ∧
      (toggleTask id s).tasks.length = s.tasks.length ∧
      ((∀ t ∈ s.tasks, t.id ≠ id) → (toggleTask id s).tasks = s.tasks) := by
  have hf : ∀ t : Task,
      (fun t : Task => if t.id = id then { t with completed := !t.completed } else t)
        ((fun t : Task => if t.id = id then { t with completed := !t.completed } else t) t) = t := by
    intro t
    obtain ⟨tid, ttext, tcomp⟩ := t
    by_cases h : tid = id <;> simp [h]
  refine ⟨?_, ?_, ?_, ?_, ?_⟩
  · show ((s.tasks.map _).map _) = s.tasks
    rw [List.map_map]
    rw [show ((fun t : Task => if t.id = id then { t with completed := !t.completed } else t) ∘
        (fun t : Task => if t.id = id then { t with completed := !t.completed } else t)) =
        fun t => t from funext hf]
    exact List.map_id' s.tasks
  · show ((s.tasks.map _).map Task.id) = s.tasks.map Task.id
    rw [List.map_map]
    apply List.map_congr_left
    intro t _
    by_cases h : t.id = id <;> simp [Function.comp, h]
  · show ((s.tasks.map _).map Task.text) = s.tasks.map Task.text
    rw [List.map_map]
    apply List.map_congr_left
    intro t _
    by_cases h : t.id = id <;> simp [Function.comp, h]
  · exact List.length_map _ _
  · intro h
    show (s.tasks.map _) = s.tasks
    have : ∀ t ∈ s.tasks,
        (fun t : Task => if t.id = id then { t with completed := !t.completed } else t) t =
          (fun t => t) t := by
      intro t ht
      simp [h t ht]
    rw [List.map_congr_left this]
    exact List.map_id' s.tasks

/-- C8 witness: double toggle of id 1 restores the sample list; toggling the
absent id 2 leaves it unchanged. -/
theorem toggleTask_involutive_witness :
    (toggleTask 1 (toggleTask 1 sampleState)).tasks = sampleState.tasks ∧
      (toggleTask 2 sampleState).tasks = sampleState.tasks :=
  ⟨(toggleTask_involutive sampleState 1).1,
   (toggleTask_involutive sampleState 2).2.2.2.2 (by decide)⟩

/-! ## C10 : frame effects of toggle and saveEdit -/

/-- C10: toggle and updateTaskText (the committing half of saveEdit) preserve
the length and positions of the list; at every position whose task id differs
from the target, the task is completely unchanged; at a position whose task id
matches, toggle changes only the completed flag (id and text intact) and
updateTaskText changes only the text (id and completed intact). -/
theorem toggle_saveEdit_frame (s : AppState) (id : Nat) (newText : String) :
    (toggleTask id s).tasks.length = s.tasks.length ∧
      (updateTaskText id newText s).tasks.length = s.tasks.length ∧
      ∀ i t, s.tasks.get? i = some t →
        (t.id ≠ id →
          (toggleTask id s).tasks.get? i = some t ∧
            (updateTaskText id newText s).tasks.get? i = some t) ∧
        (t.id = id →
          (toggleTask id s).tasks.get? i = some { t with completed := !t.completed } ∧
            (updateTaskText id newText s).tasks.get? i = some { t with text := newText }) := by
  refine ⟨List.length_map _ _, List.length_map _ _, ?_⟩
  intro i t hget
  constructor
  · intro hne
    constructor
    · show (s.tasks.map _).get? i = some t
      rw [List.get?_map, hget]
      simp [hne]
    · show (s.tasks.map _).get? i = some t
      rw [List.get?_map, hget]
      simp [hne]
  · intro heq
    constructor
    · show (s.tasks.map _).get? i = some _
      rw [List.get?_map, hget]
      simp [heq]
    · show (s.tasks.map _).get? i = some _
      rw [List.get?_map, hget]
      simp [heq]

/-- C10 witness: at the sample state, position 0 holds the task with id 1;
toggle flips exactly its completed flag and updateTaskText replaces exactly
its text. -/
theorem toggle_saveEdit_frame_witness :
    sampleState.tasks.get? 0 = some { id := 1, text := "A", completed := false } ∧
      (toggleTask 1 sampleState).tasks.get? 0 =
        some { id := 1, text := "A", completed := true } ∧
      (updateTaskText 1 "B" sampleState).tasks.get? 0 =
        some { id := 1, text := "B", completed := false } :=
  ⟨by decide,
   ((toggle_saveEdit_frame sampleState 1 "B").2.2 0
       { id := 1, text := "A", completed := false } (by decide)).2 rfl |>.1,
   ((toggle_saveEdit_frame sampleState 1 "B").2.2 0
       { id := 1, text := "A", completed := false } (by decide)).2 rfl |>.2⟩

/-! ## Helper lemmas about the id sequence under each operation -/

theorem taskIds_addTask (now : Nat) (txt : String) (s : AppState) :
    taskIds (addTask now txt s) = taskIds s ++ [now] := by
  show (s.tasks ++ [_]).map Task.id = s.tasks.map Task.id ++ [now]
  rw [List.map_append]
  rfl

theorem taskIds_toggleTask (id : Nat) (s : AppState) :
    taskIds (toggleTask id s) = taskIds s := by
  show (s.tasks.map _).map Task.id = s.tasks.map Task.id
  rw [List.map_map]
  apply List.map_congr_left
  intro t _
  by_cases h : t.id = id <;> simp [Function.comp, h]

theorem taskIds_updateTaskText (id : Nat) (txt : String) (s : AppState) :
    taskIds (updateTaskText id txt s) = taskIds s := by
  show (s.tasks.map _).map Task.id = s.tasks.map Task.id
  rw [List.map_map]
  apply List.map_congr_left
  intro t _
  by_cases h : t.id = id <;> simp [Function.comp, h]

theorem taskIds_handleSave (id : Nat) (raw : String) (s : AppState) :
    taskIds (handleSave id raw s) = taskIds s := by
  unfold handleSave
  by_cases h : (jsTrim raw).isEmpty = true
  · rw [if_pos h]
    rfl
  · rw [if_neg h]
    exact taskIds_updateTaskText id (jsTrim raw) s

theorem taskIds_deleteTask_sublist (id : Nat) (s : AppState) :
    (taskIds (deleteTask id s)).Sublist (taskIds s) :=
  List.Sublist.map Task.id (List.filter_sublist s.tasks)

theorem handleSave_editingId (id : Nat) (raw : String) (s : AppState) :
    (handleSave id raw s).editingId = none := by
  unfold handleSave
  by_cases h : (jsTrim raw).isEmpty = true
  · rw [if_pos h]
    rfl
  · rw [if_neg h]
    rfl

/-! ## C6 : fresh unique ids -/

/-- Core induction for C6: when the `Date.now()` values consumed by the add
operations of a trace are pairwise distinct, and the ids currently in the list
are pairwise distinct and disjoint from those future values, then the id list
stays duplicate-free after every prefix of the trace. -/
theorem nodup_taskIds_aux (ops : List Op) : ∀ (s : AppState),
    (taskIds s).Nodup → (∀ x ∈ taskIds s, x ∉ addTimes ops) → (addTimes ops).Nodup →
    ∀ n, (taskIds (runFrom s (ops.take n))).Nodup := by
  induction ops with
  | nil =>
    intro s h1 _ _ n
    simpa [runFrom] using h1
  | cons op rest ih =>
    intro s h1 h2 h3 n
    cases n with
    | zero => simpa [runFrom] using h1
    | succ m =>
      rw [List.take_succ_cons]
      cases op with
      | add now txt =>
        have hat : addTimes (Op.add now txt :: rest) = now :: addTimes rest := rfl
        rw [hat] at h2 h3
        obtain ⟨hnow, hrest⟩ := List.nodup_cons.mp h3
        have hnotin : now ∉ taskIds s := fun hmem => h2 now hmem (List.mem_cons_self _ _)
        refine ih (addTask now txt s) ?_ ?_ hrest m
        · rw [taskIds_addTask]
          refine List.nodup_append.mpr ⟨h1, List.nodup_singleton now, ?_⟩
          intro a ha hb
          rw [List.mem_singleton] at hb
          exact hnotin (hb ▸ ha)
        · intro x hx
          rw [taskIds_addTask] at hx
          rcases List.mem_append.mp hx with hx | hx
          · exact fun hc => h2 x hx (List.mem_cons_of_mem _ hc)
          · rw [List.mem_singleton] at hx
            exact hx ▸ hnow
      | toggle id =>
        refine ih (toggleTask id s) ?_ ?_ h3 m
        · rwa [taskIds_toggleTask]
        · rw [taskIds_toggleTask]
          exact h2
      | delete id =>
        refine ih (deleteTask id s) ?_ ?_ h3 m
        · exact List.Nodup.sublist (taskIds_deleteTask_sublist id s) h1
        · intro x hx
          exact h2 x ((taskIds_deleteTask_sublist id s).subset hx)
      | beginEdit id => exact ih (setEditing id s) h1 h2 h3 m
      | saveEdit id raw =>
        refine ih (handleSave id raw s) ?_ ?_ h3 m
        · rwa [taskIds_handleSave]
        · rw [taskIds_handleSave]
          exact h2
      | cancelEdit => exact ih (cancelEditing s) h1 h2 h3 m

/-- C6: an add appends a task with the supplied fresh id, the given text and
`completed = false` to the end of the list; and along any trace from the
initial state whose add operations consume pairwise distinct `Date.now()`
values (guaranteed in a session by the disabled-button 300 ms spacing between
adds), no two tasks in the list ever share an id. -/
theorem addTask_fresh_unique (now : Nat) (text : String) (s : AppState) (ops : List Op)
    (hops : (addTimes ops).Nodup) :
    (addTask now text s).tasks = s.tasks ++ [{ id := now, text := text, completed := false }] ∧
      ∀ n, (taskIds (run (ops.take n))).Nodup := by
  refine ⟨rfl, fun n => ?_⟩
  exact nodup_taskIds_aux ops initialState (by decide)
    (fun x hx => absurd hx (List.not_mem_nil x)) hops n

/-- C6 witness: a trace of two adds with distinct times keeps the id list
duplicate-free, and a concrete add appends its task at the end. -/
theorem addTask_fresh_unique_witness :
    (addTimes [Op.add 1 "A", Op.add 2 "B"]).Nodup ∧
      (addTask 3 "C" initialState).tasks =
        initialState.tasks ++ [{ id := 3, text := "C", completed := false }] :=
  ⟨by decide,
   (addTask_fresh_unique 3 "C" initialState [Op.add 1 "A", Op.add 2 "B"] (by decide)).1⟩

/-! ## C1 : the Editing Cursor invariant -/

/-- Prop characterization of `cursorOk`. -/
theorem cursorOk_iff (s : AppState) :
    cursorOk s = true ↔ ∀ j, s.editingId = some j → ∃ t ∈ s.tasks, t.id = j := by
  unfold cursorOk
  cases h : s.editingId with
  | none => simp
  | some id => simp [List.any_eq_true]

/-- One guarded step preserves the cursor invariant. -/
theorem cursorOk_step (s : AppState) (op : Op)
    (h1 : cursorOk s = true) (h2 : opGuard s op = true) :
    cursorOk (step s op) = true := by
  rw [cursorOk_iff] at h1 ⊢
  cases op with
  | add now txt =>
    intro j hj
    obtain ⟨t, ht, hid⟩ := h1 j hj
    exact ⟨t, List.mem_append_left _ ht, hid⟩
  | toggle id =>
    intro j hj
    obtain ⟨t, ht, hid⟩ := h1 j hj
    refine ⟨if t.id = id then { t with completed := !t.completed } else t,
      List.mem_map_of_mem _ ht, ?_⟩
    by_cases h : t.id = id
    · rw [if_pos h]
      exact hid
    · rw [if_neg h]
      exact hid
  | delete id =>
    intro j hj
    obtain ⟨t, ht, hid⟩ := h1 j hj
    have hne : s.editingId ≠ some id := by simpa [opGuard] using h2
    have hjne : j ≠ id := fun hc => hne (hc ▸ hj)
    refine ⟨t, List.mem_filter.mpr ⟨ht, ?_⟩, hid⟩
    simp only [decide_eq_true_eq, hid]
    exact hjne
  | beginEdit id =>
    intro j hj
    have hj' : some id = some j := hj
    have hij : id = j := Option.some.inj hj'
    subst hij
    have hg : ∃ t ∈ s.tasks, t.id = id := by
      simpa [opGuard, List.any_eq_true] using h2
    exact hg
  | saveEdit id raw =>
    intro j hj
    rw [show (step s (Op.saveEdit id raw)).editingId = none from
      handleSave_editingId id raw s] at hj
    cases hj
  | cancelEdit =>
    intro j hj
    cases hj

/-- The cursor invariant holds after every prefix of a trace whose operations
all satisfy their UI-reachability guard. -/
theorem cursorOk_runFrom_aux (ops : List Op) : ∀ (s : AppState),
    cursorOk s = true → goodFrom s ops = true →
    ∀ n, cursorOk (runFrom s (ops.take n)) = true := by
  induction ops with
  | nil =>
    intro s h1 _ n
    simpa [runFrom] using h1
  | cons op rest ih =>
    intro s h1 hg n
    simp only [goodFrom, Bool.and_eq_true] at hg
    cases n with
    | zero => simpa [runFrom] using h1
    | succ m =>
      rw [List.take_succ_cons]
      exact ih (step s op) (cursorOk_step s op h1 hg.1) hg.2 m

/-- C1 counterexample: add a task with id 1, begin editing it, delete it.  The
code leaves the Editing Cursor at `some 1` although the Task List is now
empty, so the invariant as claimed is violated: deleting the task the cursor
references does not clear the cursor. -/
theorem cursor_invariant_counterexample :
    cursorOk (run [Op.add 1 "A", Op.beginEdit 1, Op.delete 1]) = false ∧
      (run [Op.add 1 "A", Op.beginEdit 1, Op.delete 1]).editingId = some 1 ∧
      (run [Op.add 1 "A", Op.beginEdit 1, Op.delete 1]).tasks = [] :=
  ⟨rfl, rfl, rfl⟩

/-- C1 (amended): `deleteTask` never changes the Editing Cursor (in particular
it does not clear it when its referenced task is deleted), and the invariant
"the cursor is None or the id of a present task" holds after every operation
of any sequence in which each beginEdit targets an id present in the list and
no delete targets the id currently under edit — exactly the sequences the
rendered UI can produce, since the row being edited shows no Delete button and
beginEdit is reachable only from an existing row. -/
theorem cursor_invariant_guarded (s : AppState) (ops : List Op)
    (hs : cursorOk s = true) (hg : goodFrom s ops = true) :
    (∀ id, (deleteTask id s).editingId = s.editingId) ∧
      ∀ n, cursorOk (runFrom s (ops.take n)) = true :=
  ⟨fun _ => rfl, cursorOk_runFrom_aux ops s hs hg⟩

/-- C1 witness: a guarded trace (add, edit the existing task, cancel) keeps
the invariant at every prefix. -/
theorem cursor_invariant_guarded_witness :
    goodFrom initialState [Op.add 1 "A", Op.beginEdit 1, Op.cancelEdit] = true ∧
      cursorOk (runFrom initialState
        ([Op.add 1 "A", Op.beginEdit 1, Op.cancelEdit].take 3)) = true :=
  ⟨by decide,
   (cursor_invariant_guarded initialState [Op.add 1 "A", Op.beginEdit 1, Op.cancelEdit]
     (by decide) (by decide)).2 3⟩

end FixGalleria
